import Mathlib

/-!
Shallow embedding of `djangocore/api/models/query_translator.py`.

The module compiles SproutCore-style query strings into Django `Q` objects.
Its parsing is driven by two `re` patterns compiled in `translator.__init__`
(`big_block_expression` and `small_block_expression`) plus a trailing
combinator pattern `(?:and|or|not)+$` applied per block, and a fold over the
resulting `stack` (`translator.parse`).  We embed the Python code over
`List Char`:

* Python's backtracking `re` engine is modelled by `mtch`, a
  continuation-passing matcher over a regex AST (`RE`) with ordered
  alternation, greedy/lazy repetition and capture groups — the constructs the
  two source patterns use.  Repetition stops on a zero-width body match, as
  Python's engine does.  Recursion is structural on a fuel argument; the fuel
  passed at entry (`fuelFor`) strictly dominates the recursion depth (each
  nested call decrements by one, and each repetition step consumes input), so
  fuel exhaustion never occurs on the inputs considered.
* Python exceptions escaping `translator.parse` (KeyError from
  `self.django_operators[...]`, IndexError from `value[0]` on an empty
  string) are modelled as `Except.error ()`; `return None` is `.ok none` and
  a returned `Q` tree is `.ok (some p)`.
* Python values flowing through `parse` (strings, ints, lists, as produced by
  `convert_value` and the caller-supplied `parameters` dict) are `Value`.
-/

namespace QueryTranslator

/-- `s.toList` shorthand: query strings are embedded as `List Char`. -/
def L (s : String) : List Char := s.toList

/-! ### Character classes of the source patterns -/

/-- `[a-zA-Z\_\.]` — the column-name class of both patterns. -/
def fieldChar (c : Char) : Bool := c.isAlpha || c == '_' || c == '.'

/-- `\s` — Python whitespace (ASCII). -/
def spaceChar (c : Char) : Bool :=
  c == ' ' || c == '\t' || c == '\n' || c == '\r' || c == '\x0b' || c == '\x0c'

/-- `[0-9]`. -/
def digitChar (c : Char) : Bool := c.isDigit

/-- ASCII lower-casing, for the `re.IGNORECASE` flag and `str.lower()`. -/
def lowerChar (c : Char) : Char :=
  if 'A' ≤ c ∧ c ≤ 'Z' then Char.ofNat (c.toNat + 32) else c

/-- Case-insensitive character comparison (`re.IGNORECASE`). -/
def charIEq (c : Char) : Char → Bool := fun d => lowerChar d == lowerChar c

/-! ### List-of-char utilities mirroring Python string methods -/

/-- Python `str.strip()`. -/
def trimL (s : List Char) : List Char :=
  ((s.dropWhile spaceChar).reverse.dropWhile spaceChar).reverse

/-- Python `str.lower()`. -/
def lowerL (s : List Char) : List Char := s.map lowerChar

/-- Python `value.split(',')`: split at every comma; `"".split(',') == [""]`. -/
def splitComma : List Char → List (List Char)
  | [] => [[]]
  | c :: cs =>
    if c == ',' then [] :: splitComma cs
    else
      match splitComma cs with
      | [] => [[c]]
      | h :: t => (c :: h) :: t

/-- Python `lfield.replace(".", "__")` (the Django relation separator). -/
def replaceDotL : List Char → List Char
  | [] => []
  | c :: cs => if c == '.' then '_' :: '_' :: replaceDotL cs else c :: replaceDotL cs

/-- Python `int(...)` on an all-digit string. -/
def natOfDigits (s : List Char) : Nat := s.foldl (fun a c => 10 * a + (c.toNat - 48)) 0

/-- `re.match("^[0-9]+$", value)`: one or more digits spanning the whole
string, where `$` (without MULTILINE) also matches just before a single
newline at the end of the string — so `"5"` and `"5\n"` both match and
`"5\n\n"`, `"5\n5"` do not. -/
def isIntText (s : List Char) : Bool :=
  let core := if s.getLast? == some '\n' then s.dropLast else s
  !core.isEmpty && core.all digitChar

/-! ### Python values -/

/-- A Python value as it flows through `translator.parse`: a string, an int,
or a list (tuples and lists are not distinguished by the code paths used). -/
inductive Value where
  | str : List Char → Value
  | int : Int → Value
  | vlist : List Value → Value

/-- Python truthiness for the values above (`if parameters.get(rfield_):`). -/
def truthyValue : Value → Bool
  | .str s => !s.isEmpty
  | .int n => n != 0
  | .vlist l => !l.isEmpty

/-! ### A backtracking regex engine (the fragment Python `re` uses here) -/

/-- Regex AST: classes, ordered alternation, sequencing, greedy `?`,
lazy `*?`, greedy `+`/`*`, `$`, and numbered capture groups. -/
inductive RE where
  | eps : RE
  | eos : RE
  | cls : (Char → Bool) → RE
  | seqr : RE → RE → RE
  | altr : RE → RE → RE
  | optG : RE → RE
  | starL : RE → RE
  | starG : RE → RE
  | plusG : RE → RE
  | grp : Nat → RE → RE

/-- Captured groups: `(index, text)`, most recent first. -/
abbrev Caps := List (Nat × List Char)

/-- CPS backtracking matcher.  `k` receives the remaining input and captures;
alternation is ordered (Python tries alternatives left to right), `optG` and
`starG`/`plusG` are greedy, `starL` is lazy, and a repetition whose body
matched without consuming input stops repeating (as Python's engine does). -/
def mtch : Nat → RE → List Char → Caps →
    (List Char → Caps → Option (List Char × Caps)) → Option (List Char × Caps)
  | 0, _, _, _, _ => none
  | fuel + 1, r, s, caps, k =>
    match r with
    | .eps => k s caps
    | .eos => match s with
      | [] => k s caps
      | _ :: _ => none
    | .cls p => match s with
      | [] => none
      | c :: cs => if p c then k cs caps else none
    | .seqr a b => mtch fuel a s caps (fun s1 c1 => mtch fuel b s1 c1 k)
    | .altr a b =>
      match mtch fuel a s caps k with
      | some res => some res
      | none => mtch fuel b s caps k
    | .optG a =>
      match mtch fuel a s caps k with
      | some res => some res
      | none => k s caps
    | .starL a =>
      match k s caps with
      | some res => some res
      | none =>
        mtch fuel a s caps (fun s1 c1 =>
          if s1.length < s.length then mtch fuel (.starL a) s1 c1 k else k s1 c1)
    | .starG a =>
      match mtch fuel a s caps (fun s1 c1 =>
          if s1.length < s.length then mtch fuel (.starG a) s1 c1 k else none) with
      | some res => some res
      | none => k s caps
    | .plusG a =>
      mtch fuel a s caps (fun s1 c1 =>
        if s1.length < s.length then mtch fuel (.starG a) s1 c1 k else k s1 c1)
    | .grp i a =>
      mtch fuel a s caps (fun s1 c1 => k s1 ((i, s.take (s.length - s1.length)) :: c1))

/-- Fuel bound: dominates the matcher's recursion depth on input `s`. -/
def fuelFor (s : List Char) : Nat := 40 * s.length + 3000

/-- Anchored match attempt at the start of `s`. -/
def matchAt (r : RE) (s : List Char) : Option (List Char × Caps) :=
  mtch (fuelFor s) r s [] (fun rem caps => some (rem, caps))

/-- `re.findall` scanning loop: try a match at each position left to right;
on success record the matched text and resume after it (advancing one
character on a zero-width match), on failure advance one character. -/
def findallGo : Nat → RE → List Char → List (List Char)
  | 0, _, _ => []
  | fuel + 1, r, s =>
    match matchAt r s with
    | some (rem, _) =>
      let m := s.take (s.length - rem.length)
      if rem.length < s.length then m :: findallGo fuel r rem
      else
        match s with
        | [] => [m]
        | _ :: t => m :: findallGo fuel r t
    | none =>
      match s with
      | [] => []
      | _ :: t => findallGo fuel r t

/-- `re.findall(pattern, s)` for a pattern without capture groups. -/
def findall (r : RE) (s : List Char) : List (List Char) := findallGo (s.length + 1) r s

/-- `re.search` scanning loop: first position where the pattern matches. -/
def searchGo : Nat → RE → List Char → Option Caps
  | 0, _, _ => none
  | fuel + 1, r, s =>
    match matchAt r s with
    | some (_, caps) => some caps
    | none =>
      match s with
      | [] => none
      | _ :: t => searchGo fuel r t

/-- `re.search(pattern, s)`, returning the captures on success. -/
def search (r : RE) (s : List Char) : Option Caps := searchGo (s.length + 1) r s

/-- Group lookup in a capture list. -/
def capOf (caps : Caps) (i : Nat) : Option (List Char) :=
  (caps.find? (fun p => p.1 == i)).map (·.2)

/-! ### The two compiled patterns of `translator.__init__` -/

/-- A case-insensitive literal token (every pattern is compiled with
`re.IGNORECASE`). -/
def litCI : List Char → RE
  | [] => .eps
  | c :: cs => .seqr (.cls (charIEq c)) (litCI cs)

/-- Ordered alternation over a list of alternatives. -/
def altOf : List RE → RE
  | [] => .cls (fun _ => false)
  | [r] => r
  | r :: rs => .altr r (altOf rs)

/-- `self.django_operators.keys()` — the operator tokens joined into the
alternation `operatorstring()`.  CPython 2's dict iteration order is
implementation-defined; the source-listing order is used here.  The matcher
backtracks through all alternatives, so every result proved below is
insensitive to this order. -/
def operatorTokens : List (List Char) :=
  ["BEGINS_WITH", "ENDS_WITH", "NOT BEGINS_WITH", "NOT ENDS_WITH", "CONTAINS",
   "ICONTAINS", "NOT CONTAINS", "MATCHES", "ANY", "NOT ANY", "=", "!=", "<", ">",
   ">=", "<=", "in", "NOT IN", "NOT"].map L

/-- `self.logiclist()` — `("and", "or", "not")`. -/
def logicTokens : List (List Char) := ["and", "or", "not"].map L

/-- `(?:%s)` with `operatorstring()` spliced in. -/
def opRE : RE := altOf (operatorTokens.map litCI)

/-- `(?:and|or|not)` (`logicstring()`). -/
def logicRE : RE := altOf (logicTokens.map litCI)

/-- `ex1`, compiled with `IGNORECASE|DOTALL|VERBOSE`:
`[a-zA-Z\_\.]+ \s? (?:ops) .*? (?:and|or|not|$)+ \s? (?:and|or|not|$)?`. -/
def big_block_expression : RE :=
  .seqr (.plusG (.cls fieldChar))
  (.seqr (.optG (.cls spaceChar))
  (.seqr opRE
  (.seqr (.starL (.cls (fun _ => true)))
  (.seqr (.plusG (.altr logicRE .eos))
  (.seqr (.optG (.cls spaceChar))
         (.optG (.altr logicRE .eos)))))))

/-- `\'.*?\'` — a quoted string value. -/
def quotedRE : RE :=
  .seqr (.cls (· == '\'')) (.seqr (.starL (.cls (fun _ => true))) (.cls (· == '\'')))

/-- `\{.*?\}` — a parameter value. -/
def paramRE : RE :=
  .seqr (.cls (· == '\x7b')) (.seqr (.starL (.cls (fun _ => true))) (.cls (· == '\x7d')))

/-- `[0-9]+` — a number value. -/
def numRE : RE := .plusG (.cls digitChar)

/-- `\(.*?\)` — an in/any collection value. -/
def parenRE : RE :=
  .seqr (.cls (· == '(')) (.seqr (.starL (.cls (fun _ => true))) (.cls (· == ')')))

/-- `ex2`, compiled with `IGNORECASE|DOTALL|VERBOSE`:
`([a-zA-Z\_\.]+) \s? (ops) \s? (\'.*?\'|\{.*?\}|[0-9]+|\(.*?\))`. -/
def small_block_expression : RE :=
  .seqr (.grp 1 (.plusG (.cls fieldChar)))
  (.seqr (.optG (.cls spaceChar))
  (.seqr (.grp 2 opRE)
  (.seqr (.optG (.cls spaceChar))
         (.grp 3 (altOf [quotedRE, paramRE, numRE, parenRE])))))

/-- `"(?:%s)+$" % logicstring()` — the trailing-combinator pattern of
`translator.parse` line 202. -/
def comb_expression : RE := .seqr (.plusG logicRE) .eos

/-- `self.big_block_expression.findall(query)`. -/
def bigFindall (s : List Char) : List (List Char) := findall big_block_expression s

/-- `self.small_block_expression.search(exp)` followed by `m.groups()`
(the pattern has exactly three groups, so `len(m.groups())==3` always holds
on a successful search). -/
def smallSearch (s : List Char) : Option (List Char × List Char × List Char) :=
  match search small_block_expression s with
  | none => none
  | some caps =>
    match capOf caps 1, capOf caps 2, capOf caps 3 with
    | some f, some op, some v => some (f, op, v)
    | _, _, _ => none

/-- `re.findall("(?:and|or|not)+$", exp.strip(), re.IGNORECASE)`. -/
def combFindall (s : List Char) : List (List Char) := findall comb_expression s

/-! ### The operator table -/

/-- `translator.django_operators`, key/value pairs in source order. -/
def djangoOperatorPairs : List (List Char × List Char) :=
  [("BEGINS_WITH", "startswith"), ("ENDS_WITH", "endswith"),
   ("NOT BEGINS_WITH", "~startswith"), ("NOT ENDS_WITH", "~endswith"),
   ("CONTAINS", "contains"), ("ICONTAINS", "icontains"),
   ("NOT CONTAINS", "~contains"), ("MATCHES", "regex"), ("ANY", "in"),
   ("NOT ANY", "~in"), ("=", "exact"), ("!=", "~exact"), ("<", "lt"),
   (">", "gt"), (">=", "gte"), ("<=", "lte"), ("in", "in"), ("NOT IN", "~in"),
   ("NOT", "not")].map (fun e => (L e.1, L e.2))

/-- `self.django_operators[k]`: a Python dict index, case-sensitive; a missing
key raises KeyError (`none` here, turned into `Except.error` by the caller). -/
def django_operators (k : List Char) : Option (List Char) :=
  (djangoOperatorPairs.find? (fun e => e.1 == k)).map (·.2)

/-! ### `logic_expression` -/

/-- The `logic_expression` helper class: flags set from the keyword list. -/
structure LogicExpr where
  has_and : Bool := false
  has_or : Bool := false
  has_not : Bool := false

/-- `logic_expression.__init__`: each element is lower-cased and compared
against `"and"`, `"or"`, `"not"` for exact equality. -/
def logic_expression (l : List (List Char)) : LogicExpr :=
  l.foldl (fun e w =>
    let w := lowerL w
    if w == L "and" then { e with has_and := true }
    else if w == L "or" then { e with has_or := true }
    else if w == L "not" then { e with has_not := true }
    else e) {}

/-! ### `convert_value` -/

/-- `value.replace("'", "")`: every apostrophe anywhere is removed. -/
def stripQuotes (s : List Char) : List Char := s.filter fun c => c != '\''

/-- `convert_value` (nested in `translator.parse`), fuel-structural so that it
kernel-evaluates.  The recursion replaces each `'` anywhere in the string,
tests `^[0-9]+$`, and on a leading `(` maps itself over
`value[1:-1].split(',')` with each piece stripped; each recursive call is on a
strictly shorter string, so the fuel `s.length + 1` supplied by
`convert_value` always suffices.  `none` models the IndexError Python raises
at `value[0]` when the quote-stripped string is empty. -/
def conv : Nat → Value → Option Value
  | 0, _ => none
  | _ + 1, .int n => some (.int n)
  | _ + 1, .vlist l => some (.vlist l)
  | fuel + 1, .str s0 =>
    if isIntText (stripQuotes s0) then
      -- `int(value)` strips surrounding whitespace, so on a matched string
      -- (digits, optionally before one trailing newline) it is the number
      -- spelt by the digits.
      some (.int (Int.ofNat (natOfDigits (trimL (stripQuotes s0)))))
    else
      match stripQuotes s0 with
      | [] => none
      | c :: cs =>
        if c == '(' then
          ((splitComma cs.dropLast).foldr
            (fun x acc =>
              match conv fuel (.str (trimL x)), acc with
              | some v, some vs => some (v :: vs)
              | _, _ => none)
            (some [])).map Value.vlist
        else some (.str (c :: cs))

/-- `convert_value(value)` with adequate fuel. -/
def convert_value (v : Value) : Option Value :=
  conv (match v with | .str s => s.length + 1 | _ => 1) v

/-! ### Parameter resolution (`translator.parse` lines 258–262) -/

/-- The caller-supplied `parameters` dict (keys are unique in a Python dict;
theorems that depend on this carry a `Nodup` hypothesis). -/
abbrev Params := List (List Char × Value)

/-- `parameters.get(name)`. -/
def dictGet (ps : Params) (n : List Char) : Option Value :=
  (ps.find? (fun e => e.1 == n)).map (·.2)

/-- `parameters.get(name)` filtered through the `if parameters.get(rfield_):`
truthiness test: a present-but-falsy value is treated like a missing one. -/
def lookupTruthy (ps : Params) (n : List Char) : Option Value :=
  match dictGet ps n with
  | some v => if truthyValue v then some v else none
  | none => none

/-- Lines 258–262: if `rfield` contains `{`, strip every `{` and `}` to get
the parameter name and substitute only when the looked-up value is truthy;
otherwise `rfield` is left as the raw text. -/
def resolveParam (rfield : List Char) (ps : Params) : Value :=
  match rfield.contains '\x7b' with
  | true =>
    match lookupTruthy ps (rfield.filter (fun c => !(c == '\x7b' || c == '\x7d'))) with
    | some v => v
    | none => .str rfield
  | false => .str rfield

/-! ### The predicate (django `Q`) tree and the fold of `translator.parse` -/

/-- A django `Q` tree as built by `parse`: `Q(**kwargs)` with the single
keyword `"%s__%s" % (lfield, operator.replace("~",""))`, plus `&`, `|`, `~`. -/
inductive Pred where
  | leaf : List Char → Value → Pred
  | andP : Pred → Pred → Pred
  | orP : Pred → Pred → Pred
  | notP : Pred → Pred

/-- `evaluate_not(n, obj)` (nested in `translator.parse`). -/
def evaluate_not (n : Bool) (q : Pred) : Pred := if n then .notP q else q

/-- `operator[0] == "~"`. -/
def headTilde : List Char → Bool
  | '~' :: _ => true
  | _ => false

/-- The `Q` keyword key:
`"%s__%s" % (lfield.replace(".", "__").encode('ascii'), operator.replace("~", ""))`
(`encode('ascii')` is the identity on the ASCII inputs considered). -/
def qKeyOf (lfield dop : List Char) : List Char :=
  replaceDotL lfield ++ L "__" ++ dop.filter (fun c => c != '~')

/-- One entry of `self.stack`: a 3-tuple from `small_block_expression` or a
combinator keyword list from the trailing-run `findall`. -/
inductive Entry where
  | clause : List Char → List Char → List Char → Entry
  | comb : List (List Char) → Entry

/-- Lines 194–204: for each block, skip it when `exp.strip()==""`; otherwise
push the clause groups when the small pattern matches (its three groups always
all participate), and always push the `findall` combinator list (Python's
`findall` never returns `None`, so the `!= None` guard always passes). -/
def buildStack (blocks : List (List Char)) : List Entry :=
  (blocks.map (fun exp =>
    if trimL exp == ([] : List Char) then []
    else
      (match smallSearch exp with
       | some (f, op, v) => [Entry.clause f op v]
       | none => []) ++ [Entry.comb (combFindall (trimL exp))])).flatten

/-- The mutable locals of the fold: `obj` and `combinator`.  `combinator` is
never reset to `None`; in-place flag mutation persists in the state. -/
structure FoldState where
  obj : Option Pred
  combinator : Option LogicExpr

/-- Lines 245–291, one loop iteration.  A tuple entry looks the operator up in
`django_operators` (KeyError → `.error`), resolves parameters, converts the
value (IndexError → `.error`), and either combines with the pending
combinator (toggling its `has_not` in place when the mapped operator starts
with `~`, then AND if `has_and`, else OR if `has_or`, else leaving `obj`
untouched) or, with no combinator yet, sets
`obj = evaluate_not(not operator.find("~"), Q(**kwargs))` — Python's
`not operator.find("~")` is true exactly when `~` is at index 0.  A list entry
replaces the combinator only when `obj` is truthy (a `Q` object always is;
`None` is not).  The `obj`-is-`None`-with-combinator case cannot arise (a
combinator is only stored after `obj` is set); it is mapped to `.error` as
Python would raise there. -/
def processEntry (ps : Params) (st : FoldState) : Entry → Except Unit FoldState
  | .clause lf op rv0 =>
    match django_operators op with
    | none => .error ()
    | some dop =>
      match convert_value (resolveParam rv0 ps) with
      | none => .error ()
      | some rfield =>
        let key := qKeyOf lf dop
        match st.combinator with
        | some comb =>
          let comb := if headTilde dop then { comb with has_not := !comb.has_not } else comb
          if comb.has_and then
            match st.obj with
            | some o =>
              .ok ⟨some (.andP o (evaluate_not comb.has_not (.leaf key rfield))), some comb⟩
            | none => .error ()
          else if comb.has_or then
            match st.obj with
            | some o =>
              .ok ⟨some (.orP o (evaluate_not comb.has_not (.leaf key rfield))), some comb⟩
            | none => .error ()
          else .ok ⟨st.obj, some comb⟩
        | none => .ok ⟨some (evaluate_not (headTilde dop) (.leaf key rfield)), none⟩
  | .comb ws =>
    if st.obj.isSome then .ok ⟨st.obj, some (logic_expression ws)⟩
    else .ok st

/-- The `for entry in self.stack` loop. -/
def foldStack (ps : Params) : FoldState → List Entry → Except Unit FoldState
  | st, [] => .ok st
  | st, e :: es =>
    match processEntry ps st e with
    | .error u => .error u
    | .ok st1 => foldStack ps st1 es

/-- Line 182: `if len(query.strip())=="":` — in Python 2 this compares an int
with a str and is always `False`, so the branch is dead code; the empty query
is instead caught by the `len(m)==0` test on the block list. -/
def queryEmptyCheck (_ : List Char) : Bool := false

/-- The result of `translator.parse`: `.error ()` models an exception
escaping the call, `.ok none` models `return None`, `.ok (some p)` a `Q`. -/
abbrev CompileResult := Except Unit (Option Pred)

/-- `translator.parse(query, parameters)`. -/
def parse (query : List Char) (ps : Params) : CompileResult :=
  if queryEmptyCheck query then .ok none
  else
    match bigFindall query with
    | [] => .ok none
    | e :: es =>
      match foldStack ps ⟨none, none⟩ (buildStack (e :: es)) with
      | .error u => .error u
      | .ok st => .ok st.obj

/-! ### Supporting lemmas -/

/-- No whitespace character is in the column-name class `[a-zA-Z\_\.]`. -/
lemma fieldChar_of_space {c : Char} (h : spaceChar c = true) : fieldChar c = false := by
  simp only [spaceChar, Bool.or_eq_true, beq_iff_eq] at h
  rcases h with ((((h | h) | h) | h) | h) | h <;> subst h <;> decide

/-- The block pattern opens with `[a-zA-Z\_\.]+`, so it cannot match at a
position holding only whitespace. -/
lemma mtch_big_space (F : Nat) (s : List Char) (caps : Caps)
    (k : List Char → Caps → Option (List Char × Caps))
    (hs : ∀ c ∈ s, spaceChar c = true) :
    mtch (F + 3) big_block_expression s caps k = none := by
  cases s with
  | nil => rfl
  | cons c cs =>
    have hc : fieldChar c = false := fieldChar_of_space (hs c (by simp))
    show (if fieldChar c then _ else none) = none
    rw [hc]
    rfl

/-- `findall` of the block pattern over an all-whitespace string is empty. -/
lemma findallGo_big_space (F : Nat) :
    ∀ (s : List Char), (∀ c ∈ s, spaceChar c = true) →
      findallGo F big_block_expression s = [] := by
  induction F with
  | zero => intro s _; rfl
  | succ F ih =>
    intro s hs
    have hm : matchAt big_block_expression s = none := by
      have h3 : fuelFor s = 40 * s.length + 2997 + 3 := by
        simp only [fuelFor]
      rw [matchAt, h3]
      exact mtch_big_space _ _ _ _ hs
    cases s with
    | nil => simp [findallGo, hm]
    | cons c cs =>
      simp only [findallGo, hm]
      exact ih cs fun x hx => hs x (List.mem_cons_of_mem _ hx)

/-! ### C8 — empty and whitespace-only queries -/

/-- C8 (confirmed): for the empty query and every whitespace-only query,
`parse` returns `None` without an error and without a predicate.  (The dead
`len(query.strip())==""` test on line 182 never fires, but
`big_block_expression.findall` produces no blocks, so line 191 returns
`None`.) -/
theorem C8_empty_query (q : List Char) (ps : Params)
    (h : ∀ c ∈ q, spaceChar c = true) : parse q ps = .ok none := by
  have hb : bigFindall q = [] := findallGo_big_space (q.length + 1) q h
  simp [parse, queryEmptyCheck, hb]

/-- C8 witness: the two concrete inputs named by the claim. -/
theorem C8_empty_query_witness :
    parse (L "") [] = .ok none ∧ parse (L "   ") [] = .ok none :=
  ⟨C8_empty_query _ _ (by decide), C8_empty_query _ _ (by decide)⟩

/-! ### C10 — falsy parameter values are never substituted -/

/-- A key that occurs nowhere in the dict is not found. -/
lemma dictGet_eq_none {ps : Params} {n : List Char}
    (h : n ∉ ps.map Prod.fst) : dictGet ps n = none := by
  induction ps with
  | nil => rfl
  | cons e tl ih =>
    simp only [List.map_cons, List.mem_cons, not_or] at h
    have h1 : (e.1 == n) = false := beq_eq_false_iff_ne.mpr fun hh => h.1 (hh ▸ rfl)
    simp only [dictGet, List.find?_cons, h1]
    exact ih h.2

/-- Dropping the falsy entries of a dict with distinct keys does not change
any truthiness-filtered lookup. -/
lemma lookupTruthy_filter (ps : Params) (h : (ps.map Prod.fst).Nodup) (n : List Char) :
    lookupTruthy (ps.filter fun e => truthyValue e.2) n = lookupTruthy ps n := by
  induction ps with
  | nil => rfl
  | cons e tl ih =>
    simp only [List.map_cons, List.nodup_cons] at h
    by_cases ht : truthyValue e.2
    · rw [List.filter_cons_of_pos (by simpa using ht)]
      cases hbeq : (e.1 == n) with
      | true => simp [lookupTruthy, dictGet, List.find?_cons, hbeq]
      | false =>
        simp only [lookupTruthy, dictGet, List.find?_cons, hbeq]
        exact ih h.2
    · rw [List.filter_cons_of_neg (by simpa using ht)]
      rw [ih h.2]
      cases hbeq : (e.1 == n) with
      | true =>
        have hn : n = e.1 := (eq_of_beq hbeq).symm
        have h0 : dictGet tl n = none := dictGet_eq_none (by rw [hn]; exact h.1)
        have hr : dictGet (e :: tl) n = some e.2 := by
          simp [dictGet, List.find?_cons, hbeq]
        have hf : truthyValue e.2 = false := by simpa using ht
        simp only [lookupTruthy, h0, hr, hf]
        rfl
      | false =>
        have hsame : dictGet (e :: tl) n = dictGet tl n := by
          simp [dictGet, List.find?_cons, hbeq]
        simp only [lookupTruthy, hsame]

/-- Parameter resolution ignores falsy entries. -/
lemma resolveParam_filter (rv : List Char) (ps : Params)
    (h : (ps.map Prod.fst).Nodup) :
    resolveParam rv (ps.filter fun e => truthyValue e.2) = resolveParam rv ps := by
  simp only [resolveParam, lookupTruthy_filter ps h]

/-- One fold step ignores falsy entries. -/
lemma processEntry_filter (ps : Params) (h : (ps.map Prod.fst).Nodup)
    (st : FoldState) (e : Entry) :
    processEntry (ps.filter fun e => truthyValue e.2) st e = processEntry ps st e := by
  cases e with
  | comb ws => rfl
  | clause lf op rv0 => simp only [processEntry, resolveParam_filter _ _ h]

/-- The whole fold ignores falsy entries. -/
lemma foldStack_filter (ps : Params) (h : (ps.map Prod.fst).Nodup)
    (es : List Entry) :
    ∀ st, foldStack (ps.filter fun e => truthyValue e.2) st es = foldStack ps st es := by
  induction es with
  | nil => intro st; rfl
  | cons e es ih =>
    intro st
    simp only [foldStack, processEntry_filter ps h st e]
    cases processEntry ps st e with
    | error u => rfl
    | ok st1 => exact ih st1

/-- C10 (confirmed): with a well-formed parameter dict (distinct keys, as a
Python dict guarantees), `parse` gives the same result whether or not the
falsy-valued entries (`0`, `""`, `[]`) are present at all: substitution
happens only for truthy values, so a present-but-falsy entry behaves exactly
like a missing one, on every query. -/
theorem C10_falsy_params (q : List Char) (ps : Params)
    (h : (ps.map Prod.fst).Nodup) :
    parse q ps = parse q (ps.filter fun e => truthyValue e.2) := by
  cases hbf : bigFindall q with
  | nil => simp [parse, hbf]
  | cons e es =>
    simp only [parse, hbf]
    rw [foldStack_filter ps h]

/-- C10 witness: mapping `threshold` to the falsy `0` behaves like the empty
dict — the placeholder is left untouched in both cases. -/
theorem C10_falsy_params_witness :
    (([(L "threshold", Value.int 0)].map Prod.fst).Nodup) ∧
    parse (L "age > {threshold}") [(L "threshold", Value.int 0)] =
      parse (L "age > {threshold}")
        ([(L "threshold", Value.int 0)].filter fun e => truthyValue e.2) ∧
    parse (L "age > {threshold}") [(L "threshold", Value.int 0)] =
      .ok (some (.leaf (L "age__gt") (.str (L "{threshold}")))) :=
  ⟨by simp, C10_falsy_params _ _ (by simp), rfl⟩

/-! ### Step lemmas for the fold -/

/-- A clause processed with no pending combinator sets
`obj = evaluate_not(not operator.find("~"), Q(**kwargs))`. -/
lemma processEntry_clause_nocomb (ps : Params) (obj0 : Option Pred)
    (lf op rv0 dop : List Char) (rv : Value)
    (hop : django_operators op = some dop)
    (hcv : convert_value (resolveParam rv0 ps) = some rv) :
    processEntry ps ⟨obj0, none⟩ (.clause lf op rv0) =
      .ok ⟨some (evaluate_not (headTilde dop) (.leaf (qKeyOf lf dop) rv)), none⟩ := by
  simp only [processEntry, hop, hcv]

/-- A combinator entry with `obj` set replaces the pending combinator. -/
lemma processEntry_comb_some (ps : Params) (o : Pred) (c0 : Option LogicExpr)
    (ws : List (List Char)) :
    processEntry ps ⟨some o, c0⟩ (.comb ws) = .ok ⟨some o, some (logic_expression ws)⟩ := rfl

/-- A combinator entry with `obj` still `None` is ignored
(`if obj and type(entry)==type([])` fails). -/
lemma processEntry_comb_none (ps : Params) (c0 : Option LogicExpr)
    (ws : List (List Char)) :
    processEntry ps ⟨none, c0⟩ (.comb ws) = .ok ⟨none, c0⟩ := rfl

/-- Fold step for a clause with no pending combinator. -/
lemma foldStack_clause_nocomb (ps : Params) (obj0 : Option Pred)
    (lf op rv0 dop : List Char) (rv : Value) (es : List Entry)
    (hop : django_operators op = some dop)
    (hcv : convert_value (resolveParam rv0 ps) = some rv) :
    foldStack ps ⟨obj0, none⟩ (.clause lf op rv0 :: es) =
      foldStack ps ⟨some (evaluate_not (headTilde dop) (.leaf (qKeyOf lf dop) rv)), none⟩ es := by
  simp only [foldStack]
  rw [processEntry_clause_nocomb ps obj0 lf op rv0 dop rv hop hcv]

/-! ### C1 — unresolved parameters do not fail the call -/

/-- C1 counterexample: `compile("age > {threshold}", {})` does not fail; it
returns a predicate in which the placeholder text `{threshold}` (braces
included) survives as the literal value — the claimed
`Err(UnresolvedParameter("threshold"))` is never produced (the code has no
such error path at all). -/
theorem C1_counterexample :
    parse (L "age > {threshold}") [] =
      .ok (some (.leaf (L "age__gt") (.str (L "{threshold}")))) := rfl

/-- C1 (corrected): whenever the parameter map has no (truthy) entry for
`threshold`, `parse "age > {threshold}"` succeeds and the placeholder text is
carried verbatim into the predicate as its literal value; no compile error is
raised. -/
theorem C1_unresolved_param_survives (ps : Params)
    (h : lookupTruthy ps (L "threshold") = none) :
    parse (L "age > {threshold}") ps =
      .ok (some (.leaf (L "age__gt") (.str (L "{threshold}")))) := by
  have hres : resolveParam (L "{threshold}") ps = Value.str (L "{threshold}") := by
    show (match lookupTruthy ps (L "threshold") with
          | some v => v
          | none => Value.str (L "{threshold}")) = _
    rw [h]
  have hcv : convert_value (resolveParam (L "{threshold}") ps) =
      some (Value.str (L "{threshold}")) := by
    rw [hres]
    rfl
  show (match foldStack ps ⟨none, none⟩
          (buildStack [L "age > {threshold}"]) with
        | .error u => (Except.error u : CompileResult)
        | .ok st => .ok st.obj) = _
  rw [show buildStack [L "age > {threshold}"] =
        [Entry.clause (L "age") (L ">") (L "{threshold}"), Entry.comb []] from rfl]
  simp only [foldStack]
  rw [processEntry_clause_nocomb ps none (L "age") (L ">") (L "{threshold}")
        (L "gt") (Value.str (L "{threshold}")) rfl hcv]
  rfl

/-- C1 witness: the empty parameter map of the claim's own example. -/
theorem C1_unresolved_param_survives_witness :
    lookupTruthy [] (L "threshold") = none ∧
    parse (L "age > {threshold}") [] =
      .ok (some (.leaf (L "age__gt") (.str (L "{threshold}")))) :=
  ⟨rfl, C1_unresolved_param_survives [] rfl⟩

/-! ### C2 — the compiler is not total -/

/-- C2 (code bug): `parse` raises unhandled exceptions on syntactically
bounded inputs.  `"a in ()"` reaches `convert_value("()")`, whose recursion
produces the empty element `""` and then indexes `value[0]` — IndexError.
`"a contains 'x'"` is matched by the case-insensitive clause pattern but the
captured token `contains` misses the case-sensitive dict key `CONTAINS` —
KeyError at `self.django_operators[entry[1]]`. -/
theorem C2_uncaught_exceptions :
    parse (L "a in ()") [] = .error () ∧
    parse (L "a contains 'x'") [] = .error () := ⟨rfl, rfl⟩

/-! ### C9 — coercion strips every apostrophe, not one outer layer -/

/-- C9 counterexample: coercing `'O'Brien'` yields `OBrien` — the interior
apostrophe is removed, not preserved (the code runs
`value.replace("'", "")`, deleting every apostrophe, before any other
test). -/
theorem C9_counterexample :
    convert_value (.str (L "'O'Brien'")) = some (.str (L "OBrien")) ∧
    L "OBrien" ≠ L "O'Brien" := ⟨rfl, by decide⟩

/-- C9 (corrected): literal coercion deletes every apostrophe anywhere in the
value; whenever the apostrophe-free text is non-empty, is not matched by the
integer pattern `^[0-9]+$` (digits spanning the string, allowing one trailing
newline before `$`), and does not begin with `(`, the result is exactly that
apostrophe-free text.  For a quoted value with no interior apostrophes this
coincides with stripping one outer layer and preserving the interior
verbatim; interior apostrophes are lost. -/
theorem C9_strip_all_quotes (s : List Char)
    (h1 : stripQuotes s ≠ [])
    (h2 : isIntText (stripQuotes s) = false)
    (h3 : (stripQuotes s).head? ≠ some '(') :
    convert_value (.str s) = some (.str (stripQuotes s)) := by
  show conv (s.length + 1) (.str s) = _
  simp only [conv, h2, Bool.false_eq_true, if_false]
  cases ht : stripQuotes s with
  | nil => exact absurd ht h1
  | cons c cs =>
    rw [ht] at h3
    have hc : (c == '(') = false := by
      have hcc : c ≠ '(' := by
        intro hh
        exact h3 (by rw [hh]; rfl)
      exact beq_eq_false_iff_ne.mpr hcc
    simp only [hc, Bool.false_eq_true, if_false]

/-- C9 witness: the claim's own example input. -/
theorem C9_strip_all_quotes_witness :
    stripQuotes (L "'O'Brien'") = L "OBrien" ∧
    convert_value (.str (L "'O'Brien'")) =
      some (.str (stripQuotes (L "'O'Brien'"))) :=
  ⟨rfl, C9_strip_all_quotes (L "'O'Brien'") (by decide) (by decide) (by decide)⟩

/-! ### C4 — "a = 1 and or b = 2" takes the OR branch, not AND -/

/-- C4 counterexample: the claimed AND combination is not produced for
`"a = 1 and or b = 2"`. -/
theorem C4_counterexample :
    parse (L "a = 1 and or b = 2") [] ≠
      .ok (some (.andP (.leaf (L "a__exact") (.int 1))
                       (.leaf (L "b__exact") (.int 2)))) := by
  rw [show parse (L "a = 1 and or b = 2") [] =
        .ok (some (.orP (.leaf (L "a__exact") (.int 1))
                        (.leaf (L "b__exact") (.int 2)))) from rfl]
  simp

/-- C4 (corrected): the trailing-combinator pattern `(?:and|or|not)+$` only
captures a contiguous keyword run, so of `"and or"` only `"or"` is captured;
the combinator has `is_or` alone set and the compile deterministically takes
the OR branch: `Or(a = 1, b = 2)`.  (A combinator with both `is_and` and
`is_or` set never arises from this grammar.) -/
theorem C4_or_branch :
    parse (L "a = 1 and or b = 2") [] =
      .ok (some (.orP (.leaf (L "a__exact") (.int 1))
                      (.leaf (L "b__exact") (.int 2)))) := rfl

/-! ### C5 — the trailing bare `not` does not cancel the clause's NOT -/

/-- C5 counterexample: `"field NOT CONTAINS 'x' not"` and
`"field CONTAINS 'x'"` do not compile to structurally equal predicates. -/
theorem C5_counterexample :
    parse (L "field NOT CONTAINS 'x' not") [] ≠ parse (L "field CONTAINS 'x'") [] := by
  rw [show parse (L "field NOT CONTAINS 'x' not") [] =
        .ok (some (.notP (.leaf (L "field__contains") (.str (L "x"))))) from rfl,
      show parse (L "field CONTAINS 'x'") [] =
        .ok (some (.leaf (L "field__contains") (.str (L "x")))) from rfl]
  simp

/-- C5 (corrected): a trailing bare `not` is captured into the combinator for
a *following* clause; with no following clause it has no effect on the
current one.  The intrinsic NOT of the operator inverts the single clause via
`evaluate_not(not operator.find("~"), ...)`, so
`"field NOT CONTAINS 'x' not"` compiles to `Not(Leaf(field__contains, 'x'))`,
structurally equal to `"field NOT CONTAINS 'x'"` — not to
`"field CONTAINS 'x'"`. -/
theorem C5_trailing_not_inert :
    parse (L "field NOT CONTAINS 'x' not") [] =
      .ok (some (.notP (.leaf (L "field__contains") (.str (L "x"))))) ∧
    parse (L "field NOT CONTAINS 'x'") [] =
      .ok (some (.notP (.leaf (L "field__contains") (.str (L "x"))))) := ⟨rfl, rfl⟩

/-! ### C6 — "and not" loses the "and"; the second clause is dropped -/

/-- C6 counterexample: `"a = 1 and not b = 2"` does not compile to
`And(Leaf(a = 1), Not(Leaf(b = 2)))`. -/
theorem C6_counterexample :
    parse (L "a = 1 and not b = 2") [] ≠
      .ok (some (.andP (.leaf (L "a__exact") (.int 1))
                       (.notP (.leaf (L "b__exact") (.int 2))))) := by
  rw [show parse (L "a = 1 and not b = 2") [] =
        .ok (some (.leaf (L "a__exact") (.int 1))) from rfl]
  simp

/-- C6 (corrected): the trailing-combinator pattern captures only a
contiguous keyword run, so of `"and not"` only `"not"` is captured; the
derived combinator has `is_not` alone set, and since neither `is_and` nor
`is_or` is set the fold leaves `obj` untouched — the second clause is dropped
and the result is just `Leaf(a__exact, 1)`. -/
theorem C6_and_not_drops_clause :
    parse (L "a = 1 and not b = 2") [] =
      .ok (some (.leaf (L "a__exact") (.int 1))) ∧
    combFindall (trimL (L "a = 1 and not")) = [L "not"] := ⟨rfl, rfl⟩

/-! ### C3 — single-clause queries -/

/-- C3 counterexample: `"name = 'order'"` is a well-formed single-clause
query (identifier field, table operator `=`, quoted-string value), yet
`parse` returns `None` rather than any `Leaf`: the lazy `.*?` of the block
pattern stops at the `or` embedded in `'order'`, the truncated block
`name = 'or` has no closing quote, the clause matcher fails on it, and the
block is skipped. -/
theorem C3_counterexample :
    parse (L "name = 'order'") [] = .ok none ∧
    bigFindall (L "name = 'order'") = [L "name = 'or"] := ⟨rfl, rfl⟩

/-- C3 (corrected): well-formedness has to be taken relative to the two
matchers, not the surface grammar.  For every query that the block splitter
emits as exactly one block, from which the clause matcher extracts a
`(field, OP, value)` triple whose OP is a (case-sensitive) operator-table key
mapping to a non-NOT django operator and whose value resolves and coerces
without error, `parse` yields exactly the single leaf
`Leaf(field-with-dots-replaced ++ "__" ++ mapped-op, coerced value)` — no
And/Or/Not structure.  (Queries whose field or value embed a logical keyword
as a substring, such as `'order'`, fall outside this set.) -/
theorem C3_single_clause_leaf (q : List Char) (ps : Params) (b f op v dop : List Char)
    (rv : Value)
    (hbig : bigFindall q = [b])
    (hblank : trimL b ≠ [])
    (hsmall : smallSearch b = some (f, op, v))
    (hop : django_operators op = some dop)
    (htilde : headTilde dop = false)
    (hcv : convert_value (resolveParam v ps) = some rv) :
    parse q ps = .ok (some (.leaf (qKeyOf f dop) rv)) := by
  have hstack : buildStack [b] = [Entry.clause f op v, Entry.comb (combFindall (trimL b))] := by
    simp [buildStack, hblank, hsmall]
  simp only [parse, queryEmptyCheck, Bool.false_eq_true, if_false, hbig]
  rw [hstack]
  rw [foldStack_clause_nocomb ps none f op v dop rv _ hop hcv]
  rw [htilde]
  rfl

/-- C3 witness: `"age > 42"` satisfies every hypothesis and compiles to the
single leaf `Leaf(age__gt, 42)`. -/
theorem C3_single_clause_leaf_witness :
    bigFindall (L "age > 42") = [L "age > 42"] ∧
    smallSearch (L "age > 42") = some (L "age", L ">", L "42") ∧
    parse (L "age > 42") [] = .ok (some (.leaf (L "age__gt") (.int 42))) := by
  refine ⟨rfl, rfl, ?_⟩
  have h := C3_single_clause_leaf (L "age > 42") [] (L "age > 42") (L "age") (L ">")
    (L "42") (L "gt") (.int 42) rfl (by decide) rfl rfl rfl rfl
  exact h

/-! ### C7 — a garbled block is skipped, the well-formed clause survives -/

/-- C7 (confirmed): for every query the block splitter breaks into exactly
two blocks, one parsed by the clause matcher into a well-formed triple
(table operator, convertible value) and the other rejected by the clause
matcher, `parse` succeeds and returns exactly the predicate of the
well-formed clause (wrapped in `Not` only when its operator is a NOT
variant); the garbled block contributes nothing.  Both orders are covered. -/
theorem C7_malformed_block_skipped (q : List Char) (ps : Params)
    (b1 b2 f op v dop : List Char) (rv : Value)
    (hbig : bigFindall q = [b1, b2])
    (hb1 : trimL b1 ≠ []) (hb2 : trimL b2 ≠ [])
    (hsplit : (smallSearch b1 = some (f, op, v) ∧ smallSearch b2 = none) ∨
              (smallSearch b1 = none ∧ smallSearch b2 = some (f, op, v)))
    (hop : django_operators op = some dop)
    (hcv : convert_value (resolveParam v ps) = some rv) :
    parse q ps = .ok (some (evaluate_not (headTilde dop) (.leaf (qKeyOf f dop) rv))) := by
  simp only [parse, queryEmptyCheck, Bool.false_eq_true, if_false, hbig]
  rcases hsplit with ⟨hs1, hs2⟩ | ⟨hs1, hs2⟩
  · have hstack : buildStack [b1, b2] =
        [Entry.clause f op v, Entry.comb (combFindall (trimL b1)),
         Entry.comb (combFindall (trimL b2))] := by
      simp [buildStack, hb1, hb2, hs1, hs2]
    rw [hstack]
    rw [foldStack_clause_nocomb ps none f op v dop rv _ hop hcv]
    rfl
  · have hstack : buildStack [b1, b2] =
        [Entry.comb (combFindall (trimL b1)), Entry.clause f op v,
         Entry.comb (combFindall (trimL b2))] := by
      simp [buildStack, hb1, hb2, hs1, hs2]
    rw [hstack]
    rw [show foldStack ps ⟨none, none⟩
          (Entry.comb (combFindall (trimL b1)) :: Entry.clause f op v ::
            [Entry.comb (combFindall (trimL b2))]) =
        foldStack ps ⟨none, none⟩
          (Entry.clause f op v :: [Entry.comb (combFindall (trimL b2))]) from rfl]
    rw [foldStack_clause_nocomb ps none f op v dop rv _ hop hcv]
    rfl

/-- C7 witness: `"a = 1 and b = $"` splits into the well-formed block
`"a = 1 and "` and the garbled block `"b = $"` (the clause matcher rejects
`$` as a value); the result is exactly `Leaf(a__exact, 1)`. -/
theorem C7_malformed_block_skipped_witness :
    bigFindall (L "a = 1 and b = $") = [L "a = 1 and ", L "b = $"] ∧
    smallSearch (L "b = $") = none ∧
    parse (L "a = 1 and b = $") [] = .ok (some (.leaf (L "a__exact") (.int 1))) := by
  refine ⟨rfl, rfl, ?_⟩
  have h := C7_malformed_block_skipped (L "a = 1 and b = $") [] (L "a = 1 and ")
    (L "b = $") (L "a") (L "=") (L "1") (L "exact") (.int 1) rfl (by decide) (by decide)
    (.inl ⟨rfl, rfl⟩) rfl rfl
  exact h

end QueryTranslator
